import Mathlib

/-!
Verification of the turn-segmentation and incremental-diff state machine of the
getintercall backend (TranscribeService).

Strings are modelled as lists of characters; every character of the inputs
relevant here lives in the Basic Multilingual Plane, so the JavaScript
UTF-16 length of a string coincides with its character count.

The model below is translated from the TranscribeService revision that owns the
per-session state machine (accumulatedText, lastSentLength, chunkCount,
turnTimer) together with forceCloseTurn and resetTurnTimer, and from the
multilingual revision of the same service that additionally resolves the
language from the recognizer hint.  The callback channel is modelled by
returning the list of emitted events; the JS timer handle is modelled by the
absolute firing deadline of the scheduled force close (clearTimeout makes the
scheduled firing impossible, modelled as the deadline becoming none).
-/

namespace GetInterCall

abbrev Str := List Char

def str (s : String) : Str := s.data

/-- Word characters of a JS regex: the \w class is [A-Za-z0-9_] (ASCII only,
accented letters are not word characters). -/
def isWordChar (c : Char) : Bool :=
  ('a' ≤ c && c ≤ 'z') || ('A' ≤ c && c ≤ 'Z') || ('0' ≤ c && c ≤ '9') || c = '_'

/-- Whitespace as used both by String.prototype.trim and the \s class, for the
characters that can occur in recognizer transcripts. -/
def isSpaceChar (c : Char) : Bool :=
  c = ' ' || c = '\t' || c = '\n' || c = '\r' || c.toNat = 11 || c.toNat = 12

/-- Character-wise String.prototype.toLowerCase for the scripts the service
handles: ASCII letters and the Spanish accented letters. -/
def jsToLower (c : Char) : Char :=
  if 'A' ≤ c && c ≤ 'Z' then Char.ofNat (c.toNat + 32)
  else if c = 'Á' then 'á'
  else if c = 'É' then 'é'
  else if c = 'Í' then 'í'
  else if c = 'Ó' then 'ó'
  else if c = 'Ú' then 'ú'
  else if c = 'Ñ' then 'ñ'
  else c

/-- String.prototype.trim: strip whitespace from both ends. -/
def trim (l : Str) : Str :=
  ((l.dropWhile isSpaceChar).reverse.dropWhile isSpaceChar).reverse

/-- text.split followed by filtering out empty fragments, i.e. the list of
maximal runs of non-whitespace characters, as in
cleanText.split(regex of one or more spaces).filter(w such that w.length > 0).
The first argument accumulates the current word reversed. -/
def splitWordsAux : Str → Str → List Str
  | [], acc => if acc = [] then [] else [acc.reverse]
  | c :: l, acc =>
    if isSpaceChar c then
      if acc = [] then splitWordsAux l [] else acc.reverse :: splitWordsAux l []
    else splitWordsAux l (c :: acc)

def splitWords (l : Str) : List Str := splitWordsAux l []

/-- Word-ness of the character on one side of a position; the position before
the start and after the end of the text counts as non-word. -/
def isWordOpt : Option Char → Bool
  | none => false
  | some c => isWordChar c

/-- A JS regex word boundary holds at a position iff exactly one of the two
adjacent characters is a word character. -/
def boundary (a b : Option Char) : Bool := isWordOpt a != isWordOpt b

/-- Tokens of the regular expressions used by detectLanguage: a word boundary,
a literal word, an alternation of literal words, one-or-more whitespace, and
one-or-more word characters. -/
inductive RTok where
  | bnd : RTok
  | lit : Str → RTok
  | alts : List Str → RTok
  | wsp : RTok
  | wrd : RTok

/-- Match a literal word at the head of the text, returning the new preceding
character and the remaining text. -/
def matchLit : Str → Option Char → Str → Option (Option Char × Str)
  | [], prev, l => some (prev, l)
  | _ :: _, _, [] => none
  | c :: w, _, d :: l => if c = d then matchLit w (some d) l else none

/-- All ways of consuming one or more leading characters satisfying p, each
given as (last consumed character, remaining text). -/
def plusSplits (p : Char → Bool) : Str → List (Char × Str)
  | [] => []
  | c :: l => if p c then (c, l) :: plusSplits p l else []

/-- Backtracking matcher for a token sequence anchored at the current
position; prev is the character just before that position. -/
def matchToks : List RTok → Option Char → Str → Bool
  | [], _, _ => true
  | .bnd :: ts, prev, l => boundary prev l.head? && matchToks ts prev l
  | .lit w :: ts, prev, l =>
    match matchLit w prev l with
    | some (p, rest) => matchToks ts p rest
    | none => false
  | .alts ws :: ts, prev, l =>
    ws.any fun w =>
      match matchLit w prev l with
      | some (p, rest) => matchToks ts p rest
      | none => false
  | .wsp :: ts, _, l => (plusSplits isSpaceChar l).any fun pr => matchToks ts (some pr.1) pr.2
  | .wrd :: ts, _, l => (plusSplits isWordChar l).any fun pr => matchToks ts (some pr.1) pr.2

/-- regex.test: try to match the token sequence at every position. -/
def testFrom (pat : List RTok) : Option Char → Str → Bool
  | prev, [] => matchToks pat prev []
  | prev, c :: l => matchToks pat prev (c :: l) || testFrom pat (some c) l

def testPattern (pat : List RTok) (l : Str) : Bool := testFrom pat none l

/-- The seven spanishGrammarPatterns of the source, token for token. -/
def spanishGrammarPatterns : List (List RTok) :=
  [ [.bnd, .alts [str "que", str "qué"], .wsp,
     .alts [str "es", str "son", str "está", str "están", str "tiene", str "tienen"], .bnd],
    [.bnd, .alts [str "el", str "la", str "los", str "las"], .wsp, .wrd, .wsp,
     .alts [str "de", str "del"], .bnd],
    [.bnd, .alts [str "esto", str "esta", str "este", str "eso", str "esa", str "ese"], .wsp,
     .alts [str "es", str "son"], .bnd],
    [.bnd, .alts [str "muy", str "más", str "menos"], .wsp, .wrd],
    [.bnd, .alts [str "no", str "si"], .wsp,
     .alts [str "puedo", str "puede", str "quiero", str "quiere", str "voy", str "va"], .bnd],
    [.bnd, .lit (str "aquí"), .wsp, .alts [str "es", str "está", str "en"], .bnd],
    [.bnd, .lit (str "estamos"), .wsp, .alts [str "con", str "en"], .bnd] ]

/-- The alternatives of the spanishPattern word list, in source order. -/
def spanishWords : List Str :=
  [ str "de", str "del", str "el", str "la", str "los", str "las", str "un", str "una",
    str "está", str "están", str "son", str "es", str "como", str "qué", str "cómo",
    str "por", str "para", str "con", str "sin", str "pero", str "y", str "o",
    str "mi", str "tu", str "su", str "me", str "te", str "se", str "lo", str "le",
    str "ha", str "he", str "sido", str "sé", str "vamos", str "hacer", str "entonces",
    str "solo", str "mientras", str "lugares", str "más", str "nada", str "esto",
    str "no", str "que", str "muy", str "aquí", str "allí", str "allá", str "ahí",
    str "bien", str "mal", str "todo", str "siempre", str "nunca", str "cuando",
    str "donde", str "mucho", str "poco", str "grande", str "nuevo", str "bueno",
    str "malo", str "si", str "sí", str "ver", str "ir", str "voy", str "va",
    str "hago", str "dice", str "decir", str "ser", str "estar", str "tener",
    str "tengo", str "tiene", str "poder", str "puedo", str "querer", str "quiero",
    str "deber", str "debe", str "año", str "día", str "vez", str "cosa", str "gente",
    str "tiempo", str "vida", str "casa", str "ciudad", str "centro", str "desde",
    str "hasta", str "otro", str "mismo", str "cada", str "todos", str "estamos",
    str "sea" ]

/-- One global-match step of the word-list pattern at the current position:
the first alternative (in source order) whose characters match and whose
enclosing word boundaries hold, returning its length. -/
def findWordAt (ws : List Str) (prev : Option Char) (l : Str) : Option Nat :=
  if boundary prev l.head? then
    ws.findSome? fun w =>
      match matchLit w prev l with
      | some (p, rest) => if w ≠ [] && boundary p rest.head? then some w.length else none
      | none => none
  else none

/-- Count of global matches of the word-list pattern, as cleanText.match
produces them: scan left to right, on a match continue after it, otherwise
advance one character.  fuel bounds the recursion by the text length and is
never exhausted when it starts at the text length. -/
def countFuel : Nat → Option Char → Str → Nat
  | 0, _, _ => 0
  | _ + 1, _, [] => 0
  | fuel + 1, prev, c :: l =>
    match findWordAt spanishWords prev (c :: l) with
    | some n => 1 + countFuel fuel (((c :: l).take n).getLast?) (l.drop (n - 1))
    | none => countFuel fuel (some c) l

/-- spanishWordCount: number of matches of the spanishPattern in the text. -/
def spanishWordCount (l : Str) : Nat := countFuel l.length none l

/-- The character class of accented vowels and inverted punctuation tested
first by detectLanguage. -/
def hasSpanishMark (l : Str) : Bool :=
  l.any fun c => ['á', 'é', 'í', 'ó', 'ú', 'ñ', '¿', '¡'].contains c

/-- cleanText = text.toLowerCase().trim() -/
def cleanText (text : Str) : Str := trim (text.map jsToLower)

inductive Lang where
  | es : Lang
  | en : Lang
deriving DecidableEq, Repr

/-- detectLanguage, translated branch for branch from the source.  The ratio
test spanishRatio at least 0.18, with spanishRatio equal to
spanishWordCount / words.length when words.length > 0 and 0 otherwise, is
expressed exactly over naturals; for word counts of realistic size the double
division of the source rounds to the same comparison. -/
def detectLanguage (text : Str) : Lang :=
  if hasSpanishMark (cleanText text) then Lang.es
  else if spanishGrammarPatterns.any (fun p => testPattern p (cleanText text)) then Lang.es
  else if (splitWords (cleanText text)).length ≤ 5 ∧ 1 ≤ spanishWordCount (cleanText text) then
    Lang.es
  else if 0 < (splitWords (cleanText text)).length ∧
      18 * (splitWords (cleanText text)).length ≤ 100 * spanishWordCount (cleanText text) then
    Lang.es
  else Lang.en

/-- One emitted message of the callback channel.  Absent JSON flags are
falsy and are modelled as false; the sessionId field always echoes the id of
the session being processed and is omitted.  Flag combinations encode the
event kinds: FinalTurn (isNewTurn), ForcedClose (isNewTurn and isForcedClose),
NewBlock (isNewBlock), PartialUpdate (all flags false), and the live update of
the multilingual revision (isLiveUpdate). -/
structure TurnEvent where
  text : Str
  language : Lang
  isNewTurn : Bool
  isForcedClose : Bool
  isNewBlock : Bool
  isLiveUpdate : Bool
deriving DecidableEq, Repr

/-- The per-session entry of sessionData.  turnTimer holds the absolute firing
deadline of the scheduled force close, or none when no firing is pending; the
callback is modelled by the event lists the operations return. -/
structure Session where
  accumulatedText : Str
  lastSentLength : Nat
  chunkCount : Nat
  turnTimer : Option Nat
deriving DecidableEq, Repr

/-- FORCE_CLOSE_AFTER_MS = 2500 -/
def FORCE_CLOSE_AFTER_MS : Nat := 2500

/-- The fresh session installed by startRealTimeTranscription. -/
def initSession : Session :=
  { accumulatedText := [], lastSentLength := 0, chunkCount := 0, turnTimer := none }

/-- forceCloseTurn: the body of the safety timer.  When the accumulated text
trims to nothing it does nothing; otherwise it emits one forced-close event
carrying the trimmed accumulated text and its re-detected language and resets
accumulatedText, lastSentLength and turnTimer. -/
def forceCloseTurn (s : Session) : Session × List TurnEvent :=
  if trim s.accumulatedText = [] then (s, [])
  else
    ({ s with accumulatedText := [], lastSentLength := 0, turnTimer := none },
     [⟨trim s.accumulatedText, detectLanguage (trim s.accumulatedText), true, true, false, false⟩])

/-- resetTurnTimer at wall-clock time now: clear any pending firing, then
schedule forceCloseTurn after FORCE_CLOSE_AFTER_MS when the accumulated text
trims to something. -/
def resetTurnTimer (now : Nat) (s : Session) : Session :=
  if trim s.accumulatedText = [] then { s with turnTimer := none }
  else { s with turnTimer := some (now + FORCE_CLOSE_AFTER_MS) }

/-- The turn event handler of the timer-based revision, for one session entry,
processed at wall-clock time now.  incomingText abbreviates trim transcript
and is inlined; detectedLang is detectLanguage of incomingText. -/
def onTurn (now : Nat) (s : Session) (transcript : Str) (isFinal : Bool) :
    Session × List TurnEvent :=
  if trim transcript = [] then (s, [])
  else if isFinal then
    ({ s with turnTimer := none, accumulatedText := [], lastSentLength := 0 },
     [⟨trim transcript, detectLanguage (trim transcript), true, false, false, false⟩])
  else if (trim transcript).length < s.lastSentLength then
    -- reformulation: close the previous block, then open a new one
    (resetTurnTimer now
       { s with accumulatedText := trim transcript, lastSentLength := (trim transcript).length },
     (if trim s.accumulatedText = [] then []
      else [⟨trim s.accumulatedText, detectLanguage s.accumulatedText, true, false, false, false⟩])
       ++ [⟨trim transcript, detectLanguage (trim transcript), false, false, true, false⟩])
  else if s.lastSentLength < (trim transcript).length then
    -- growth: emit only the new trimmed suffix, if any
    (resetTurnTimer now
       { s with accumulatedText := trim transcript, lastSentLength := (trim transcript).length },
     if trim ((trim transcript).drop s.lastSentLength) = [] then []
     else
       [⟨trim ((trim transcript).drop s.lastSentLength), detectLanguage (trim transcript),
         false, false, false, false⟩])
  else
    -- equal length: duplicate, ignore
    (resetTurnTimer now s, [])

/-- The turn handler behind the sessionData lookup: an unknown session id
(the map holds no entry) is silently ignored. -/
def onSnapshot (now : Nat) (s : Option Session) (transcript : Str) (isFinal : Bool) :
    Option Session × List TurnEvent :=
  match s with
  | none => (none, [])
  | some sess => (some (onTurn now sess transcript isFinal).1, (onTurn now sess transcript isFinal).2)

/-- The close closure returned by startRealTimeTranscription: clear any
pending timer firing, then flush non-empty accumulated text through
forceCloseTurn; the transport teardown that follows destroys the entry. -/
def closeSession (s : Session) : Session × List TurnEvent :=
  if trim s.accumulatedText = [] then ({ s with turnTimer := none }, [])
  else forceCloseTurn { s with turnTimer := none }

/-- Language resolution of the multilingual revision: assemblyLang is the
language_code (or language) field of the snapshot, the empty string when
absent; a hint starting with es or en wins, otherwise the heuristic detector
runs on the incoming text. -/
def resolveLang (assemblyLang : Str) (incomingText : Str) : Lang :=
  if List.isPrefixOf (str "es") assemblyLang then Lang.es
  else if List.isPrefixOf (str "en") assemblyLang then Lang.en
  else detectLanguage incomingText

/-- String.prototype.includes: does the needle occur as a contiguous
substring of the haystack. -/
def containsSub (needle : Str) : Str → Bool
  | [] => List.isPrefixOf needle []
  | c :: h => List.isPrefixOf needle (c :: h) || containsSub needle h

/-- First word of a word list, lowercased, with the fallback of the source
(the sentinel three underscores) when there is none. -/
def firstWordLower (ws : List Str) : Str :=
  match ws.head? with
  | some w => w.map jsToLower
  | none => str "___"

/-- The drastic-content-change heuristic of the multilingual revision, on the
raw accumulated text and the (already trimmed) incoming text.  The source also
computes newFirstWord from the incoming text but never uses it. -/
def contentChanged (acc incoming : Str) : Bool :=
  decide (0 < (trim acc).length)
    && decide ((splitWords (trim acc)).length ≤ 3)
    && !containsSub (firstWordLower (splitWords (trim acc))) (incoming.map jsToLower)
    && decide ((trim acc).length * 2 < incoming.length)

/-- The turn event handler of the multilingual revision.  It differs from
onTurn in resolving the language from the recognizer hint, in emitting the
whole incoming text as a live update on growth (saving a short previous answer
first when contentChanged fires), and in tagging that update isLiveUpdate. -/
def onTurnM (now : Nat) (s : Session) (transcript : Str) (isFinal : Bool) (hint : Str) :
    Session × List TurnEvent :=
  if trim transcript = [] then (s, [])
  else if isFinal then
    ({ s with turnTimer := none, accumulatedText := [], lastSentLength := 0 },
     [⟨trim transcript, resolveLang hint (trim transcript), true, false, false, false⟩])
  else if (trim transcript).length < s.lastSentLength then
    (resetTurnTimer now
       { s with accumulatedText := trim transcript, lastSentLength := (trim transcript).length },
     (if trim s.accumulatedText = [] then []
      else [⟨trim s.accumulatedText, detectLanguage s.accumulatedText, true, false, false, false⟩])
       ++ [⟨trim transcript, resolveLang hint (trim transcript), false, false, true, false⟩])
  else if (trim transcript).length ≠ s.lastSentLength then
    (resetTurnTimer now
       { s with accumulatedText := trim transcript, lastSentLength := (trim transcript).length },
     (if contentChanged s.accumulatedText (trim transcript) then
        [⟨trim s.accumulatedText, detectLanguage (trim s.accumulatedText), true, false, false, false⟩]
      else [])
       ++ [⟨trim transcript, resolveLang hint (trim transcript), false, false, false, true⟩])
  else
    (resetTurnTimer now s, [])

/-- Process a list of (transcript, arrival time) snapshots, all partial,
threading the session state and concatenating the emitted events. -/
def runTurns : Session → List (Str × Nat) → Session × List TurnEvent
  | s, [] => (s, [])
  | s, (t, n) :: rest =>
    ((runTurns (onTurn n s t false).1 rest).1,
     (onTurn n s t false).2 ++ (runTurns (onTurn n s t false).1 rest).2)

/-- The segments a snapshot sequence cuts the final text into: each snapshot
minus the length already covered by its predecessor (k covers the text length
before the first snapshot). -/
def segsOf : Nat → List Str → List Str
  | _, [] => []
  | k, t :: rest => t.drop k :: segsOf t.length rest

/-- A strictly prefix-extending chain of snapshots rooted at p. -/
def GrowChain : Str → List Str → Prop
  | _, [] => True
  | p, t :: rest => (p <+: t ∧ p.length < t.length) ∧ GrowChain t rest

theorem length_dropWhile_le (p : Char → Bool) (l : Str) :
    (l.dropWhile p).length ≤ l.length := by
  induction l with
  | nil => simp [List.dropWhile]
  | cons a l ih =>
    simp only [List.dropWhile_cons]
    split
    · exact ih.trans (by simp)
    · simp

theorem dropWhile_dropWhile_self (p : Char → Bool) (l : Str) :
    (l.dropWhile p).dropWhile p = l.dropWhile p := by
  induction l with
  | nil => rfl
  | cons a l ih =>
    by_cases h : p a
    · simp [List.dropWhile_cons, h, ih]
    · simp [List.dropWhile_cons, h]

theorem dropWhile_eq_self_mono (p : Char → Bool) {l m : Str} (hpre : l <+: m)
    (hm : m.dropWhile p = m) : l.dropWhile p = l := by
  cases l with
  | nil => rfl
  | cons a l =>
    obtain ⟨u, rfl⟩ := hpre
    by_cases h : p a
    · exfalso
      rw [List.cons_append, List.dropWhile_cons, if_pos h] at hm
      have h2 := length_dropWhile_le p (l ++ u)
      rw [hm] at h2
      simp at h2
    · simp [List.dropWhile_cons, h]

theorem trim_prefix_dropWhile (l : Str) : trim l <+: l.dropWhile isSpaceChar := by
  unfold trim
  have h : (l.dropWhile isSpaceChar).reverse.dropWhile isSpaceChar
      <:+ (l.dropWhile isSpaceChar).reverse := List.dropWhile_suffix _
  have h2 := List.reverse_prefix.2 h
  simpa using h2

theorem trim_idem (l : Str) : trim (trim l) = trim l := by
  have h1 : (trim l).dropWhile isSpaceChar = trim l :=
    dropWhile_eq_self_mono isSpaceChar (trim_prefix_dropWhile l)
      (dropWhile_dropWhile_self isSpaceChar l)
  show ((trim l |>.dropWhile isSpaceChar).reverse.dropWhile isSpaceChar).reverse = trim l
  rw [h1]
  show (((((l.dropWhile isSpaceChar).reverse.dropWhile isSpaceChar).reverse).reverse).dropWhile
      isSpaceChar).reverse = trim l
  rw [List.reverse_reverse, dropWhile_dropWhile_self]
  rfl

theorem resetTurnTimer_acc (now : Nat) (s : Session) :
    (resetTurnTimer now s).accumulatedText = s.accumulatedText := by
  unfold resetTurnTimer
  split <;> rfl

theorem resetTurnTimer_len (now : Nat) (s : Session) :
    (resetTurnTimer now s).lastSentLength = s.lastSentLength := by
  unfold resetTurnTimer
  split <;> rfl

theorem resetTurnTimer_timer_of_ne (now : Nat) (s : Session)
    (h : trim s.accumulatedText ≠ []) :
    (resetTurnTimer now s).turnTimer = some (now + FORCE_CLOSE_AFTER_MS) := by
  unfold resetTurnTimer
  rw [if_neg h]

/-- The growth branch in closed form: for an already-trimmed snapshot longer
than lastSentLength, state moves to the snapshot and only the trimmed new
suffix is emitted, when non-empty. -/
theorem onTurn_growth (now : Nat) (s : Session) (t : Str) (ht : trim t = t)
    (hlt : s.lastSentLength < t.length) :
    onTurn now s t false =
      (⟨t, t.length, s.chunkCount, some (now + FORCE_CLOSE_AFTER_MS)⟩,
       if trim (t.drop s.lastSentLength) = [] then []
       else [⟨trim (t.drop s.lastSentLength), detectLanguage t, false, false, false, false⟩]) := by
  have hne : t ≠ [] := by
    intro h
    rw [h] at hlt
    simp at hlt
  have htne : ¬ trim t = [] := by rw [ht]; exact hne
  unfold onTurn
  rw [ht, if_neg hne]
  rw [if_neg (by simp : ¬ (false : Bool) = true)]
  rw [if_neg (by omega : ¬ t.length < s.lastSentLength)]
  rw [if_pos hlt]
  unfold resetTurnTimer
  rw [if_neg (show ¬ trim t = [] from htne)]

theorem onTurn_equal (now : Nat) (s : Session) (t : Str) (hne : trim t ≠ [])
    (he : s.lastSentLength = (trim t).length) :
    onTurn now s t false = (resetTurnTimer now s, []) := by
  unfold onTurn
  rw [if_neg hne]
  rw [if_neg (by simp : ¬ (false : Bool) = true)]
  rw [if_neg (by omega : ¬ (trim t).length < s.lastSentLength)]
  rw [if_neg (by omega : ¬ s.lastSentLength < (trim t).length)]

/-- After any non-ignored partial snapshot the session again holds a trimmed,
non-empty accumulated text whose length is lastSentLength, and
lastSentLength equals the trimmed snapshot length. -/
theorem onTurn_snapshot_post (now : Nat) (s : Session) (t : Str) (hne : trim t ≠ [])
    (hacc : trim s.accumulatedText = s.accumulatedText)
    (hlen : s.lastSentLength = s.accumulatedText.length) :
    trim (onTurn now s t false).1.accumulatedText = (onTurn now s t false).1.accumulatedText
    ∧ (onTurn now s t false).1.accumulatedText ≠ []
    ∧ (onTurn now s t false).1.lastSentLength = (trim t).length := by
  have hpos : 0 < (trim t).length := List.length_pos.2 hne
  unfold onTurn
  rw [if_neg hne]
  rw [if_neg (by simp : ¬ (false : Bool) = true)]
  by_cases h1 : (trim t).length < s.lastSentLength
  · rw [if_pos h1]
    exact ⟨by rw [resetTurnTimer_acc]; exact trim_idem t,
           by rw [resetTurnTimer_acc]; exact hne,
           by rw [resetTurnTimer_len]⟩
  · rw [if_neg h1]
    by_cases h2 : s.lastSentLength < (trim t).length
    · rw [if_pos h2]
      exact ⟨by rw [resetTurnTimer_acc]; exact trim_idem t,
             by rw [resetTurnTimer_acc]; exact hne,
             by rw [resetTurnTimer_len]⟩
    · rw [if_neg h2]
      have he : s.lastSentLength = (trim t).length := by omega
      refine ⟨by rw [resetTurnTimer_acc]; exact hacc, ?_, by rw [resetTurnTimer_len]; exact he⟩
      rw [resetTurnTimer_acc]
      intro h
      rw [h] at hlen
      simp at hlen
      omega

/-- Claim C2: a partial snapshot shorter than lastSentLength arriving while
the accumulated text is non-empty makes the handler emit exactly one
FinalTurn-style close event (isNewTurn) carrying the old trimmed accumulated
text with its own re-detected language, followed by exactly one NewBlock event
(isNewBlock) carrying the new snapshot text and its resolved language, and
sets accumulatedText to the new text and lastSentLength to its length; this
holds in the timer-based handler and in the multilingual handler.  The
hypotheses that the stored accumulated text is trimmed and the snapshot text
is trimmed and non-empty restate that stored text always comes from earlier
trimmed snapshots and that empty snapshots are discarded by the input guard. -/
theorem c2_reformulation_closes_old_block (now : Nat) (s : Session) (t : Str) (hint : Str)
    (ht : trim t = t) (htne : t ≠ [])
    (hacc : trim s.accumulatedText = s.accumulatedText) (haccne : s.accumulatedText ≠ [])
    (hlt : t.length < s.lastSentLength) :
    onTurn now s t false =
      (⟨t, t.length, s.chunkCount, some (now + FORCE_CLOSE_AFTER_MS)⟩,
       [⟨s.accumulatedText, detectLanguage s.accumulatedText, true, false, false, false⟩,
        ⟨t, detectLanguage t, false, false, true, false⟩])
    ∧ onTurnM now s t false hint =
      (⟨t, t.length, s.chunkCount, some (now + FORCE_CLOSE_AFTER_MS)⟩,
       [⟨s.accumulatedText, detectLanguage s.accumulatedText, true, false, false, false⟩,
        ⟨t, resolveLang hint t, false, false, true, false⟩]) := by
  have htne' : ¬ trim t = [] := by rw [ht]; exact htne
  have haccne' : ¬ trim s.accumulatedText = [] := by rw [hacc]; exact haccne
  constructor
  · unfold onTurn
    rw [ht, if_neg htne]
    rw [if_neg (by simp : ¬ (false : Bool) = true)]
    rw [if_pos hlt]
    rw [if_neg haccne']
    rw [hacc]
    unfold resetTurnTimer
    rw [if_neg htne']
    rfl
  · unfold onTurnM
    rw [ht, if_neg htne]
    rw [if_neg (by simp : ¬ (false : Bool) = true)]
    rw [if_pos hlt]
    rw [if_neg haccne']
    rw [hacc]
    unfold resetTurnTimer
    rw [if_neg htne']
    rfl

theorem c2_witness :
    trim (str "yes") = str "yes"
    ∧ onTurn 0 ⟨str "I think maybe", 13, 0, none⟩ (str "yes") false =
        (⟨str "yes", 3, 0, some 2500⟩,
         [⟨str "I think maybe", detectLanguage (str "I think maybe"), true, false, false, false⟩,
          ⟨str "yes", detectLanguage (str "yes"), false, false, true, false⟩]) :=
  ⟨by decide,
   (c2_reformulation_closes_old_block 0 ⟨str "I think maybe", 13, 0, none⟩ (str "yes") (str "")
      (by decide) (by decide) (by decide) (by decide) (by decide)).1⟩

/-- Claim C3: a final snapshot with non-whitespace text cancels any pending
force-close firing, emits exactly one FinalTurn event (isNewTurn) carrying the
whole trimmed snapshot text with its resolved language, and resets
accumulatedText and lastSentLength to empty and zero, so the next partial
snapshot of any length is processed from the empty state; in both handler
revisions. -/
theorem c3_final_resets (now : Nat) (s : Session) (t : Str) (hint : Str)
    (hne : trim t ≠ []) :
    onTurn now s t true =
      (⟨[], 0, s.chunkCount, none⟩,
       [⟨trim t, detectLanguage (trim t), true, false, false, false⟩])
    ∧ onTurnM now s t true hint =
      (⟨[], 0, s.chunkCount, none⟩,
       [⟨trim t, resolveLang hint (trim t), true, false, false, false⟩]) := by
  constructor
  · unfold onTurn
    rw [if_neg hne]
    rfl
  · unfold onTurnM
    rw [if_neg hne]
    rfl

theorem c3_witness :
    trim (str " hola como estas ") ≠ []
    ∧ onTurn 9 ⟨str "hola com", 8, 3, some 11⟩ (str " hola como estas ") true =
        (⟨[], 0, 3, none⟩,
         [⟨str "hola como estas", detectLanguage (trim (str " hola como estas ")),
           true, false, false, false⟩]) :=
  ⟨by decide,
   by
     have h := (c3_final_resets 9 ⟨str "hola com", 8, 3, some 11⟩ (str " hola como estas ")
       (str "") (by decide)).1
     rw [h]
     decide⟩

/-- Claim C4: every non-ignored partial snapshot reschedules the force-close
firing to exactly FORCE_CLOSE_AFTER_MS = 2500 milliseconds after its arrival
(any previously pending deadline is discarded, so no firing can happen before
the new deadline), and the firing body forceCloseTurn emits exactly one
ForcedClose event (isNewTurn and isForcedClose) carrying the trimmed
accumulated text with its re-detected language and resets the session state;
when the accumulated text trims to nothing the firing body does nothing. -/
theorem c4_force_close_timer :
    FORCE_CLOSE_AFTER_MS = 2500
    ∧ (∀ (now : Nat) (s : Session) (t : Str), trim t ≠ [] →
        trim s.accumulatedText = s.accumulatedText →
        s.lastSentLength = s.accumulatedText.length →
        (onTurn now s t false).1.turnTimer = some (now + FORCE_CLOSE_AFTER_MS))
    ∧ (∀ s : Session, trim s.accumulatedText ≠ [] →
        forceCloseTurn s =
          (⟨[], 0, s.chunkCount, none⟩,
           [⟨trim s.accumulatedText, detectLanguage (trim s.accumulatedText),
             true, true, false, false⟩]))
    ∧ (∀ s : Session, trim s.accumulatedText = [] → forceCloseTurn s = (s, [])) := by
  refine ⟨rfl, ?_, ?_, ?_⟩
  · intro now s t hne hacc hlen
    obtain ⟨p1, p2, _⟩ := onTurn_snapshot_post now s t hne hacc hlen
    have hne2 : trim (onTurn now s t false).1.accumulatedText ≠ [] := by
      rw [p1]; exact p2
    have hpos : 0 < (trim t).length := List.length_pos.2 hne
    unfold onTurn at hne2 ⊢
    rw [if_neg hne, if_neg (by simp : ¬ (false : Bool) = true)] at hne2 ⊢
    by_cases h1 : (trim t).length < s.lastSentLength
    · rw [if_pos h1] at hne2 ⊢
      dsimp only at hne2 ⊢
      rw [resetTurnTimer_acc] at hne2
      exact resetTurnTimer_timer_of_ne now _ hne2
    · rw [if_neg h1] at hne2 ⊢
      by_cases h2 : s.lastSentLength < (trim t).length
      · rw [if_pos h2] at hne2 ⊢
        dsimp only at hne2 ⊢
        rw [resetTurnTimer_acc] at hne2
        exact resetTurnTimer_timer_of_ne now _ hne2
      · rw [if_neg h2] at hne2 ⊢
        dsimp only at hne2 ⊢
        rw [resetTurnTimer_acc] at hne2
        exact resetTurnTimer_timer_of_ne now _ hne2
  · intro s h
    unfold forceCloseTurn
    rw [if_neg h]
  · intro s h
    unfold forceCloseTurn
    rw [if_pos h]

theorem c4_witness :
    trim (str "hola sea") ≠ []
    ∧ (onTurn 40 ⟨str "hola", 4, 0, some 7⟩ (str "hola sea") false).1.turnTimer = some (40 + FORCE_CLOSE_AFTER_MS)
    ∧ forceCloseTurn ⟨str "hola sea", 8, 1, some 2540⟩ =
        (⟨[], 0, 1, none⟩,
         [⟨str "hola sea", detectLanguage (trim (str "hola sea")), true, true, false, false⟩]) :=
  ⟨by decide,
   c4_force_close_timer.2.1 40 ⟨str "hola", 4, 0, some 7⟩ (str "hola sea")
     (by decide) (by decide) (by decide),
   by
     have h := c4_force_close_timer.2.2.1 ⟨str "hola sea", 8, 1, some 2540⟩ (by decide)
     rw [h]
     decide⟩

/-- Claim C5: the close closure of a session clears any pending force-close
firing (its result carries no deadline, so no stale firing is possible), and
when the accumulated text is non-empty it performs exactly the forced-close
emission of the timer body before the transport teardown; whitespace-only
accumulated text produces no event. -/
theorem c5_close_flushes (s : Session) :
    (closeSession s).1.turnTimer = none
    ∧ (trim s.accumulatedText ≠ [] →
        closeSession s = forceCloseTurn { s with turnTimer := none }
        ∧ (closeSession s).2 =
            [⟨trim s.accumulatedText, detectLanguage (trim s.accumulatedText),
              true, true, false, false⟩])
    ∧ (trim s.accumulatedText = [] → (closeSession s).2 = []) := by
  by_cases h : trim s.accumulatedText = []
  · refine ⟨?_, fun hn => absurd h hn, fun _ => ?_⟩
    · unfold closeSession
      rw [if_pos h]
    · unfold closeSession
      rw [if_pos h]
  · have hclose : closeSession s = forceCloseTurn { s with turnTimer := none } := by
      unfold closeSession
      rw [if_neg h]
    have hforce : forceCloseTurn { s with turnTimer := none } =
        (⟨[], 0, s.chunkCount, none⟩,
         [⟨trim s.accumulatedText, detectLanguage (trim s.accumulatedText),
           true, true, false, false⟩]) := by
      unfold forceCloseTurn
      rw [if_neg (show ¬ trim ({ s with turnTimer := none } : Session).accumulatedText = [] from h)]
    refine ⟨?_, fun _ => ⟨hclose, ?_⟩, fun hh => absurd hh h⟩
    · rw [hclose, hforce]
    · rw [hclose, hforce]

theorem c5_witness :
    trim (str " hola sea ") ≠ []
    ∧ (closeSession ⟨str " hola sea ", 10, 6, some 77⟩).1.turnTimer = none
    ∧ (closeSession ⟨str " hola sea ", 10, 6, some 77⟩).2 =
        [⟨str "hola sea", detectLanguage (trim (str " hola sea ")), true, true, false, false⟩] :=
  ⟨by decide,
   (c5_close_flushes ⟨str " hola sea ", 10, 6, some 77⟩).1,
   by
     have h := ((c5_close_flushes ⟨str " hola sea ", 10, 6, some 77⟩).2.1 (by decide)).2
     rw [h]
     decide⟩

/-- Claim C6: a snapshot whose text is empty or whitespace-only is ignored by
both handler revisions (no event, session state unchanged, and, being a total
function, no exception), and a snapshot addressed to a session id with no
entry in the session map is ignored likewise. -/
theorem c6_input_guards (now : Nat) (s : Session) (t : Str) (f : Bool) (hint : Str) :
    (trim t = [] → onTurn now s t f = (s, []) ∧ onTurnM now s t f hint = (s, []))
    ∧ onSnapshot now none t f = (none, []) := by
  refine ⟨fun h => ⟨?_, ?_⟩, rfl⟩
  · unfold onTurn
    rw [if_pos h]
  · unfold onTurnM
    rw [if_pos h]

theorem c6_witness :
    trim (str "   ") = []
    ∧ onTurn 0 ⟨str "hola", 4, 2, some 9⟩ (str "   ") false = (⟨str "hola", 4, 2, some 9⟩, [])
    ∧ onSnapshot 5 none (str "hola") true = (none, []) :=
  ⟨by decide,
   ((c6_input_guards 0 ⟨str "hola", 4, 2, some 9⟩ (str "   ") false (str "")).1 (by decide)).1,
   (c6_input_guards 5 initSession (str "hola") true (str "")).2⟩

/-- Claim C7: of two consecutive partial snapshots whose trimmed texts have
equal length, the second emits no event and leaves accumulatedText and
lastSentLength unchanged, while the force-close firing is still rescheduled to
FORCE_CLOSE_AFTER_MS after the arrival of the duplicate.  The hypotheses on
the starting session restate the stored-text invariant. -/
theorem c7_duplicate_idempotent (now1 now2 : Nat) (s : Session) (t1 t2 : Str)
    (hacc : trim s.accumulatedText = s.accumulatedText)
    (hlen : s.lastSentLength = s.accumulatedText.length)
    (h1 : trim t1 ≠ []) (h2 : (trim t2).length = (trim t1).length) :
    (onTurn now2 (onTurn now1 s t1 false).1 t2 false).2 = []
    ∧ (onTurn now2 (onTurn now1 s t1 false).1 t2 false).1.accumulatedText
        = (onTurn now1 s t1 false).1.accumulatedText
    ∧ (onTurn now2 (onTurn now1 s t1 false).1 t2 false).1.lastSentLength
        = (onTurn now1 s t1 false).1.lastSentLength
    ∧ (onTurn now2 (onTurn now1 s t1 false).1 t2 false).1.turnTimer
        = some (now2 + FORCE_CLOSE_AFTER_MS) := by
  obtain ⟨p1, p2, p3⟩ := onTurn_snapshot_post now1 s t1 h1 hacc hlen
  have ht2 : trim t2 ≠ [] := by
    intro hh
    rw [hh] at h2
    have := List.length_pos.2 h1
    simp at h2
    omega
  have he : (onTurn now1 s t1 false).1.lastSentLength = (trim t2).length := by
    rw [p3, h2]
  have hstep := onTurn_equal now2 (onTurn now1 s t1 false).1 t2 ht2 he
  rw [hstep]
  have hne : trim (onTurn now1 s t1 false).1.accumulatedText ≠ [] := by
    rw [p1]; exact p2
  exact ⟨rfl, resetTurnTimer_acc _ _, resetTurnTimer_len _ _,
    resetTurnTimer_timer_of_ne now2 _ hne⟩

theorem c7_witness :
    trim (str "hola!") ≠ []
    ∧ (trim (str "hole!")).length = (trim (str "hola!")).length
    ∧ (onTurn 3 (onTurn 1 initSession (str "hola!") false).1 (str "hole!") false).2 = []
    ∧ (onTurn 3 (onTurn 1 initSession (str "hola!") false).1 (str "hole!") false).1.turnTimer
        = some (3 + FORCE_CLOSE_AFTER_MS) :=
  ⟨by decide, by decide,
   (c7_duplicate_idempotent 1 3 initSession (str "hola!") (str "hole!")
      (by decide) (by decide) (by decide) (by decide)).1,
   (c7_duplicate_idempotent 1 3 initSession (str "hola!") (str "hole!")
      (by decide) (by decide) (by decide) (by decide)).2.2.2⟩

/-- Claim C8: detectLanguage is a total function into the closed tag set, is
the first-match-wins cascade of the source (Spanish diacritics or inverted
punctuation, then the Spanish grammar patterns, then at most five tokens with
at least one stop-word match or a stop-word ratio of at least 0.18, otherwise
the default), and classifies the two reference inputs as stated. -/
theorem c8_detect_language :
    (∀ t, detectLanguage t = Lang.es ∨ detectLanguage t = Lang.en)
    ∧ (∀ t, detectLanguage t =
        if hasSpanishMark (cleanText t) then Lang.es
        else if spanishGrammarPatterns.any (fun p => testPattern p (cleanText t)) then Lang.es
        else if (splitWords (cleanText t)).length ≤ 5 ∧ 1 ≤ spanishWordCount (cleanText t) then
          Lang.es
        else if 0 < (splitWords (cleanText t)).length ∧
            18 * (splitWords (cleanText t)).length ≤ 100 * spanishWordCount (cleanText t) then
          Lang.es
        else Lang.en)
    ∧ detectLanguage (str "¿Qué hora es?") = Lang.es
    ∧ detectLanguage (str "what time is it") = Lang.en := by
  refine ⟨fun t => ?_, fun t => rfl, by decide, by decide⟩
  unfold detectLanguage
  split
  · exact Or.inl rfl
  split
  · exact Or.inl rfl
  split
  · exact Or.inl rfl
  split
  · exact Or.inl rfl
  · exact Or.inr rfl

/-- Claim C10: session creation, both snapshot handlers, the force-close
firing body and the close closure all preserve the invariant that
lastSentLength equals the length of accumulatedText, and under that invariant
both are zero and empty together. -/
theorem c10_length_invariant :
    initSession.lastSentLength = initSession.accumulatedText.length
    ∧ (∀ (now : Nat) (s : Session) (t : Str) (f : Bool),
        s.lastSentLength = s.accumulatedText.length →
        (onTurn now s t f).1.lastSentLength = (onTurn now s t f).1.accumulatedText.length)
    ∧ (∀ (now : Nat) (s : Session) (t : Str) (f : Bool) (hint : Str),
        s.lastSentLength = s.accumulatedText.length →
        (onTurnM now s t f hint).1.lastSentLength
          = (onTurnM now s t f hint).1.accumulatedText.length)
    ∧ (∀ s : Session, s.lastSentLength = s.accumulatedText.length →
        (forceCloseTurn s).1.lastSentLength = (forceCloseTurn s).1.accumulatedText.length)
    ∧ (∀ s : Session, s.lastSentLength = s.accumulatedText.length →
        (closeSession s).1.lastSentLength = (closeSession s).1.accumulatedText.length)
    ∧ (∀ s : Session, s.lastSentLength = s.accumulatedText.length →
        (s.lastSentLength = 0 ↔ s.accumulatedText = [])) := by
  refine ⟨rfl, ?_, ?_, ?_, ?_, ?_⟩
  · intro now s t f h
    unfold onTurn
    split
    · exact h
    split
    · rfl
    split
    · rw [resetTurnTimer_acc, resetTurnTimer_len]
    split
    · rw [resetTurnTimer_acc, resetTurnTimer_len]
    · rw [resetTurnTimer_acc, resetTurnTimer_len]; exact h
  · intro now s t f hint h
    unfold onTurnM
    split
    · exact h
    split
    · rfl
    split
    · rw [resetTurnTimer_acc, resetTurnTimer_len]
    split
    · rw [resetTurnTimer_acc, resetTurnTimer_len]
    · rw [resetTurnTimer_acc, resetTurnTimer_len]; exact h
  · intro s h
    unfold forceCloseTurn
    split
    · exact h
    · rfl
  · intro s h
    unfold closeSession
    split
    · exact h
    · unfold forceCloseTurn
      split
      · exact h
      · rfl
  · intro s h
    rw [h]
    exact List.length_eq_zero

/-- Claim C9: in the multilingual handler every event that carries the text
of the snapshot itself (the final, NewBlock and live-update events, i.e. the
ones without isNewTurn; plus the final event, characterized separately) uses
the resolved language, and the resolved language is the recognizer hint
whenever the hint starts with es or en, the heuristic detector on the snapshot
text otherwise. -/
theorem c9_language_hint (now : Nat) (s : Session) (t : Str) (f : Bool) (hint : Str) :
    (∀ e ∈ (onTurnM now s t f hint).2, e.isNewTurn = false →
        e.language = resolveLang hint (trim t))
    ∧ (trim t ≠ [] →
        onTurnM now s t true hint =
          (⟨[], 0, s.chunkCount, none⟩,
           [⟨trim t, resolveLang hint (trim t), true, false, false, false⟩]))
    ∧ (List.isPrefixOf (str "es") hint = true → resolveLang hint (trim t) = Lang.es)
    ∧ (List.isPrefixOf (str "es") hint = false → List.isPrefixOf (str "en") hint = true →
        resolveLang hint (trim t) = Lang.en)
    ∧ (List.isPrefixOf (str "es") hint = false → List.isPrefixOf (str "en") hint = false →
        resolveLang hint (trim t) = detectLanguage (trim t)) := by
  refine ⟨?_, ?_, ?_, ?_, ?_⟩
  · unfold onTurnM
    by_cases hg : trim t = []
    · rw [if_pos hg]
      intro e he
      simp at he
    rw [if_neg hg]
    by_cases hf : f = true
    · rw [if_pos hf]
      intro e he hn
      simp at he
      rw [he] at hn
      simp at hn
    · rw [if_neg hf]
      by_cases h1 : (trim t).length < s.lastSentLength
      · rw [if_pos h1]
        intro e he hn
        dsimp only at he
        rcases List.mem_append.1 he with h | h
        · revert h
          split
          · intro h; simp at h
          · intro h
            simp at h
            rw [h] at hn
            simp at hn
        · simp at h
          rw [h]
      · rw [if_neg h1]
        by_cases h2 : (trim t).length ≠ s.lastSentLength
        · rw [if_pos h2]
          intro e he hn
          dsimp only at he
          rcases List.mem_append.1 he with h | h
          · revert h
            split
            · intro h
              simp at h
              rw [h] at hn
              simp at hn
            · intro h; simp at h
          · simp at h
            rw [h]
        · rw [if_neg h2]
          intro e he
          simp at he
  · intro hne
    unfold onTurnM
    rw [if_neg hne]
    rfl
  · intro h
    unfold resolveLang
    rw [if_pos h]
  · intro h1 h2
    unfold resolveLang
    rw [if_neg (by simp [h1]), if_pos h2]
  · intro h1 h2
    unfold resolveLang
    rw [if_neg (by simp [h1]), if_neg (by simp [h2])]

theorem c9_witness :
    List.isPrefixOf (str "es") (str "es-ES") = true
    ∧ resolveLang (str "es-ES") (trim (str "good day")) = Lang.es
    ∧ onTurnM 0 initSession (str "good day") true (str "es-ES") =
        (⟨[], 0, 0, none⟩,
         [⟨str "good day", resolveLang (str "es-ES") (trim (str "good day")),
           true, false, false, false⟩]) :=
  ⟨by decide,
   (c9_language_hint 0 initSession (str "good day") true (str "es-ES")).2.2.1 (by decide),
   by
     have h := (c9_language_hint 0 initSession (str "good day") true (str "es-ES")).2.1
       (by decide)
     rw [h]
     decide⟩

theorem growChain_last (texts : List Str) (p : Str) (h : GrowChain p texts) :
    p <+: texts.getLastD p := by
  induction texts generalizing p with
  | nil => exact List.prefix_refl p
  | cons t rest ih =>
    rw [List.getLastD_cons]
    exact h.1.1.trans (ih t h.2)

theorem segsOf_flatten (texts : List Str) (p : Str) (h : GrowChain p texts) :
    (segsOf p.length texts).flatten = (texts.getLastD p).drop p.length := by
  induction texts generalizing p with
  | nil => simp [segsOf, List.drop_length]
  | cons t rest ih =>
    obtain ⟨u, hu⟩ := growChain_last rest t h.2
    rw [List.getLastD_cons]
    show (t.drop p.length :: segsOf t.length rest).flatten = (rest.getLastD t).drop p.length
    rw [List.flatten_cons, ih t h.2, ← hu, List.drop_left,
      List.drop_append_of_le_length h.1.2.le]

/-- Processing a strictly prefix-extending chain of trimmed partial snapshots
from a session whose lastSentLength covers p emits exactly the trimmed new
segments, flag-free, in order. -/
theorem runTurns_chain : ∀ (parts : List (Str × Nat)) (p : Str) (s : Session),
    s.lastSentLength = p.length →
    (∀ x ∈ parts, trim x.1 = x.1) →
    GrowChain p (parts.map Prod.fst) →
    ((runTurns s parts).2.map TurnEvent.text).flatten
        = ((segsOf p.length (parts.map Prod.fst)).map trim).flatten
    ∧ (∀ e ∈ (runTurns s parts).2,
        e.isNewTurn = false ∧ e.isForcedClose = false ∧ e.isNewBlock = false)
  | [], p, s, _, _, _ => by simp [runTurns, segsOf]
  | (t, n) :: rest, p, s, hlen, htr, hch => by
    have ht : trim t = t := htr (t, n) (by simp)
    have hlt : s.lastSentLength < t.length := by rw [hlen]; exact hch.1.2
    have hg := onTurn_growth n s t ht hlt
    have hlen2 : (onTurn n s t false).1.lastSentLength = t.length := by rw [hg]
    have ihh := runTurns_chain rest t (onTurn n s t false).1 hlen2
      (fun x hx => htr x (by simp [hx])) hch.2
    have h1 : ((onTurn n s t false).2.map TurnEvent.text).flatten
        = trim (t.drop s.lastSentLength) := by
      rw [hg]
      dsimp only
      split
      · rename_i hcond
        simpa using hcond.symm
      · simp
    constructor
    · show (((onTurn n s t false).2 ++ (runTurns (onTurn n s t false).1 rest).2).map
          TurnEvent.text).flatten = _
      rw [List.map_append, List.flatten_append, ihh.1, h1, hlen]
      show trim (t.drop p.length) ++ ((segsOf t.length (rest.map Prod.fst)).map trim).flatten
        = ((t.drop p.length :: segsOf t.length (rest.map Prod.fst)).map trim).flatten
      simp
    · intro e he
      have he2 : e ∈ (onTurn n s t false).2
          ∨ e ∈ (runTurns (onTurn n s t false).1 rest).2 :=
        List.mem_append.1 he
      rcases he2 with h | h
      · rw [hg] at h
        dsimp only at h
        revert h
        split
        · intro h; simp at h
        · intro h
          simp at h
          rw [h]
          exact ⟨rfl, rfl, rfl⟩
      · exact ihh.2 e h

/-- Claim C1: on a growing partial snapshot exactly the trimmed suffix past
lastSentLength is emitted as a flag-free PartialUpdate (nothing when that
suffix trims to nothing, the state being updated either way), and over any
strictly prefix-extending chain of trimmed partial snapshots fed to a fresh
session the concatenation of all emitted texts is the concatenation of the
per-snapshot segments of the last snapshot, each trimmed, those segments
concatenating to the last snapshot itself. -/
theorem c1_suffix_diff :
    (∀ (now : Nat) (s : Session) (t : Str), trim t = t → s.lastSentLength < t.length →
      onTurn now s t false =
        (⟨t, t.length, s.chunkCount, some (now + FORCE_CLOSE_AFTER_MS)⟩,
         if trim (t.drop s.lastSentLength) = [] then []
         else [⟨trim (t.drop s.lastSentLength), detectLanguage t, false, false, false, false⟩]))
    ∧ (∀ (parts : List (Str × Nat)) (s : Session),
        s.lastSentLength = 0 →
        (∀ x ∈ parts, trim x.1 = x.1) →
        GrowChain [] (parts.map Prod.fst) →
        ((runTurns s parts).2.map TurnEvent.text).flatten
            = ((segsOf 0 (parts.map Prod.fst)).map trim).flatten
        ∧ (segsOf 0 (parts.map Prod.fst)).flatten = (parts.map Prod.fst).getLastD []
        ∧ (∀ e ∈ (runTurns s parts).2,
            e.isNewTurn = false ∧ e.isForcedClose = false ∧ e.isNewBlock = false)) := by
  refine ⟨onTurn_growth, fun parts s h0 htr hch => ?_⟩
  have h := runTurns_chain parts [] s (by simpa using h0) htr hch
  refine ⟨by simpa using h.1, ?_, h.2⟩
  have h2 := segsOf_flatten (parts.map Prod.fst) [] hch
  simpa using h2

theorem c1_witness :
    ((runTurns initSession [(str "hola com", 0), (str "hola como estas", 1)]).2.map
        TurnEvent.text).flatten
      = ((segsOf 0 [str "hola com", str "hola como estas"]).map trim).flatten
    ∧ (segsOf 0 [str "hola com", str "hola como estas"]).flatten = str "hola como estas"
    ∧ (runTurns initSession [(str "hola com", 0), (str "hola como estas", 1)]).2.map
        TurnEvent.text = [str "hola com", str "o estas"] := by
  have h := c1_suffix_diff.2 [(str "hola com", 0), (str "hola como estas", 1)] initSession
    rfl (by decide)
    ⟨⟨⟨str "hola com", rfl⟩, by decide⟩, ⟨⟨str "o estas", by decide⟩, by decide⟩, trivial⟩
  exact ⟨h.1, h.2.1, by decide⟩

theorem c10_witness :
    (onTurn 0 initSession (str "hola sea") false).1.lastSentLength
      = (onTurn 0 initSession (str "hola sea") false).1.accumulatedText.length :=
  c10_length_invariant.2.1 0 initSession (str "hola sea") false rfl

end GetInterCall
